import Mathlib

/-!
Shallow embedding of two components of the vscode-jupyter extension:

* `LastCellExecutionTracker` (src/unnamed/part_000): tracks, per notebook
  cell, metadata about the most recent remote-kernel execution and mirrors
  it into a workspace memento, keyed by `LAST_EXECUTED_CELL_<serverId>`
  with one record per notebook URI.  All persistence writes go through a
  promise chain (`this.chainedPromises = this.chainedPromises.finally(...)`).

* `JupyterUriProviderRegistration`
  (src/kernels/jupyter/connection/jupyterUriProviderRegistration.ts):
  registry of third-party Jupyter server URI providers, persisting
  `{providerId, extensionId}` records into a global memento and lazily
  activating contributing extensions.

The memento (a key/value store) is modelled as an association list from
string keys to values; JavaScript object maps (`{ [key: string]: ... }`)
and `Map` objects are modelled the same way.  JavaScript truthiness tests
on optional numbers and strings are modelled by `truthyNat` / `truthyStr`
(`undefined`, `0`, `''` are falsy).
-/

set_option autoImplicit false

/-- `CellExecutionInfo` from part_000 line 17, with every field optional
(the tracker stores `Partial<CellExecutionInfo>` values). Times are
modelled as natural numbers (milliseconds since epoch). -/
structure CellExecutionInfo where
  msg_id : Option String
  kernelId : Option String
  cellIndex : Option Nat
  startTime : Option Nat
  executionCount : Option Nat
deriving Repr, DecidableEq

/-- JavaScript truthiness of an optional number: `undefined` and `0` are falsy. -/
def truthyNat : Option Nat → Bool
  | none => false
  | some n => n != 0

/-- JavaScript truthiness of an optional string: `undefined` and `''` are falsy. -/
def truthyStr : Option String → Bool
  | none => false
  | some s => s != ""

/-- Remove the binding for key `k` (JavaScript `delete obj[k]` / absence of a key). -/
def mapDelete {β : Type} (m : List (String × β)) (k : String) : List (String × β) :=
  m.filter (fun p => p.1 != k)

/-- Set the binding for key `k` (JavaScript `obj[k] = v` / `Map.set`):
replaces an existing binding in place, otherwise appends, matching the
insertion-order semantics of JavaScript objects and Maps. -/
def mapSet {β : Type} (m : List (String × β)) (k : String) (v : β) : List (String × β) :=
  if m.any (fun p => p.1 == k) then
    m.map (fun p => if p.1 == k then (k, v) else p)
  else
    m ++ [(k, v)]

/-- The per-server value stored in the workspace memento:
`{ [notebookUri: string]: CellExecutionInfo }`. -/
abbrev NotebookMap := List (String × CellExecutionInfo)

/-- The workspace memento restricted to the tracker's keys. -/
abbrev Memento := List (String × NotebookMap)

/-- `memento.get(key, {})`: the stored value, defaulting to the empty object. -/
def mementoGetD (m : Memento) (k : String) : NotebookMap :=
  (List.lookup k m).getD []

/-- `memento.update(key, v)`: `v = undefined` removes the key, otherwise stores `v`. -/
def mementoUpdate (m : Memento) (k : String) : Option NotebookMap → Memento
  | none => mapDelete m k
  | some v => mapSet m k v

/-- `getStateKey` (part_000 lines 36-38). -/
def getStateKey (serverId : String) : String :=
  "LAST_EXECUTED_CELL_" ++ serverId

/-- The part of a kernel connection metadata the tracker inspects:
whether `isRemoteConnection(...)` holds and the `serverId`. -/
structure KernelConnectionMetadata where
  isRemote : Bool
  serverId : String
deriving Repr, DecidableEq

/-- `getLastTrackedCellExecution` (part_000 lines 39-51): `undefined` for
untitled notebooks and non-remote kernels, otherwise the record stored for
the notebook's URI under the server's state key. -/
def getLastTrackedCellExecution (notebookUri : String) (isUntitled : Bool)
    (k : KernelConnectionMetadata) (m : Memento) : Option CellExecutionInfo :=
  if isUntitled then none
  else if !k.isRemote then none
  else List.lookup notebookUri (mementoGetD m (getStateKey k.serverId))

/-- In-memory state of the tracker relevant to `trackCellExecution`:
the `executedCells` map (keyed by cell document URI), the number of live
`anyMessage` subscriptions, and the workspace memento. -/
structure TrackerState where
  executedCells : List (String × CellExecutionInfo)
  subscriptionCount : Nat
  memento : Memento
deriving Repr, DecidableEq

/-- `trackCellExecution` (part_000 lines 52-124), up to the point where the
message handler is connected: for non-remote kernels or untitled cell
documents it returns immediately without touching any state; otherwise it
clears the cell's `executedCells` entry and (when the kernel has a session)
connects the `anyMessage` handler. -/
def trackCellExecution (st : TrackerState) (cellUri : String) (cellIsUntitled : Bool)
    (k : KernelConnectionMetadata) (hasSession : Bool) : TrackerState :=
  if !k.isRemote || cellIsUntitled then st
  else
    { st with
      executedCells := mapDelete st.executedCells cellUri,
      subscriptionCount :=
        if hasSession then st.subscriptionCount + 1 else st.subscriptionCount }

/-- The queued read-modify-write step of `deleteTrackedCellExecution`
(part_000 lines 134-141).  `currentState[notebookId].cellIndex` is read
without a guard: when the notebook has no record, the JavaScript code
throws a `TypeError`, modelled as `Except.error ()` (no update happens). -/
def deleteStep (serverId notebookUri : String) (cellIndex : Nat) (m : Memento) :
    Except Unit Memento :=
  let key := getStateKey serverId
  let currentState := mementoGetD m key
  match List.lookup notebookUri currentState with
  | none => Except.error ()
  | some r =>
    if r.cellIndex == some cellIndex then
      Except.ok (mementoUpdate m key (some (mapDelete currentState notebookUri)))
    else
      Except.ok m

/-- `deleteTrackedCellExecution` (part_000 lines 125-142) with its queued
step already executed by the chain: untitled notebooks and non-remote
kernels return without queueing anything. -/
def deleteTrackedCellExecution (notebookUri : String) (notebookIsUntitled : Bool)
    (k : KernelConnectionMetadata) (cellIndex : Nat) (m : Memento) :
    Except Unit Memento :=
  if notebookIsUntitled then Except.ok m
  else if !k.isRemote then Except.ok m
  else deleteStep k.serverId notebookUri cellIndex m

/-- The queued read-modify-write step of `trackLastExecution`
(part_000 lines 152-157): store `info` under the notebook's URI in the
server's state object. -/
def trackStep (serverId notebookUri : String) (info : CellExecutionInfo) (m : Memento) :
    Memento :=
  let key := getStateKey serverId
  let currentState := mementoGetD m key
  mementoUpdate m key (some (mapSet currentState notebookUri info))

/-- Whether `trackLastExecution` (part_000 lines 143-158) reaches its
queued update: it returns early when `executionCount`, `msg_id` and
`startTime` are all falsy, or when the kernel is not remote. -/
def trackLastExecutionWrites (k : KernelConnectionMetadata) (info : CellExecutionInfo) : Bool :=
  !(!truthyNat info.executionCount && !truthyStr info.msg_id && !truthyNat info.startTime)
    && k.isRemote

/-- `trackLastExecution` (part_000 lines 143-158) with its queued step
already executed by the chain. -/
def trackLastExecution (k : KernelConnectionMetadata) (notebookUri : String)
    (info : CellExecutionInfo) (m : Memento) : Memento :=
  if !truthyNat info.executionCount && !truthyStr info.msg_id && !truthyNat info.startTime then m
  else if !k.isRemote then m
  else trackStep k.serverId notebookUri info m

/-- The queued step of `onDidRemoveServerUris` (part_000 lines 159-167):
`memento.update(getStateKey(serverId), undefined)` for every removed server. -/
def removeServersStep (serverIds : List String) (m : Memento) : Memento :=
  serverIds.foldl (fun acc s => mementoUpdate acc (getStateKey s) none) m

/-- The fields of an iopub message inspected by `anyMessageHandler`
(part_000 lines 80-107): the parent header's `msg_id`, the header date as a
timestamp (`none` models a date that fails to convert, in which case the
locally sampled time is kept), and `content.execution_count` when present
as a number. -/
structure IOPubMessage where
  parentHeaderMsgId : Option String
  headerDate : Option Nat
  executionCount : Option Nat
deriving Repr, DecidableEq

/-- State carried across invocations of `anyMessageHandler` for one tracked
cell: the cell's `executedCells` entry, whether the `anyMessage`
subscription is still connected (`disposeAllDisposables` disconnects it),
the workspace memento, and a counter of memento writes performed by
`trackLastExecution` for this tracked execution. -/
structure CellTrackingState where
  info : Option CellExecutionInfo
  subscribed : Bool
  memento : Memento
  persistCount : Nat
deriving Repr, DecidableEq

/-- The start-time block of `anyMessageHandler` (part_000 lines 84-93):
when `startTime` is still falsy it is set to the kernel header date,
falling back to `jsNow` (the value of `new Date().getTime()` at this
invocation) when the header date cannot be used. -/
def applyStartTime (jsNow : Nat) (msg : IOPubMessage) (info : CellExecutionInfo) :
    CellExecutionInfo :=
  if !truthyNat info.startTime then
    { info with startTime := some (msg.headerDate.getD jsNow) }
  else info

/-- The `recv` branch of `anyMessageHandler` (part_000 lines 80-107).
When a new execution count is observed the handler stores it, runs
`trackLastExecution` and disposes the subscription. -/
def recvStep (jsNow : Nat) (k : KernelConnectionMetadata) (notebookUri : String)
    (msg : IOPubMessage) (s : CellTrackingState) : CellTrackingState :=
  if !s.subscribed then s
  else
    match s.info with
    | none => s
    | some info0 =>
      if truthyStr info0.msg_id && msg.parentHeaderMsgId == info0.msg_id then
        let info1 := applyStartTime jsNow msg info0
        match msg.executionCount with
        | some ec =>
          if !truthyNat info1.executionCount then
            if info1.executionCount != some ec then
              let info2 := { info1 with executionCount := some ec }
              { info := some info2,
                subscribed := false,
                memento := trackLastExecution k notebookUri info2 s.memento,
                persistCount :=
                  s.persistCount + (if trackLastExecutionWrites k info2 then 1 else 0) }
            else { s with info := some info1 }
          else { s with info := some info1 }
        | none => { s with info := some info1 }
      else s

/-- The `send` branch of `anyMessageHandler` (part_000 lines 62-79): an
`execute_request` whose metadata `cellId` matches the tracked cell resets
the cell's entry to `{msg_id, kernelId, cellIndex}`. -/
structure ExecuteRequest where
  msgType : String
  metadataCellId : Option String
  msg_id : String
deriving Repr, DecidableEq

/-- The `send` branch of `anyMessageHandler` (part_000 lines 62-79). -/
def sendStep (cellUri kernelId : String) (cellIndex : Nat)
    (req : ExecuteRequest) (s : CellTrackingState) : CellTrackingState :=
  if !s.subscribed then s
  else if req.msgType == "execute_request" && req.metadataCellId == some cellUri then
    { s with
      info := some
        { msg_id := some req.msg_id, kernelId := some kernelId,
          cellIndex := some cellIndex, startTime := none, executionCount := none } }
  else s

/-- Process a sequence of received iopub messages. -/
def recvRun (jsNow : Nat) (k : KernelConnectionMetadata) (notebookUri : String)
    (msgs : List IOPubMessage) (s : CellTrackingState) : CellTrackingState :=
  msgs.foldl (fun st m => recvStep jsNow k notebookUri m st) s

/-! Promise-chain model.  Each of `trackLastExecution`,
`deleteTrackedCellExecution` and `onDidRemoveServerUris` extends
`this.chainedPromises` with `.finally(callback)`, so the queued callbacks
run one after another.  A queued callback is a read phase
(`memento.get`) followed by a write phase (`memento.update` computed from
the snapshot read); `.finally` waits for the returned update promise to
settle before the next callback starts. -/

/-- A queued persistence operation. -/
inductive ChainOp where
  | track (serverId notebookUri : String) (info : CellExecutionInfo)
  | del (serverId notebookUri : String) (cellIndex : Nat)
  | removeServers (serverIds : List String)
deriving Repr, DecidableEq

/-- Atomic (uninterleaved) semantics of one queued callback.  A `del`
callback that throws (missing record, part_000 line 137) performs no
update. -/
def applyOp (m : Memento) : ChainOp → Memento
  | ChainOp.track sid nb info => trackStep sid nb info m
  | ChainOp.del sid nb idx =>
    match deleteStep sid nb idx m with
    | Except.ok m2 => m2
    | Except.error _ => m
  | ChainOp.removeServers ids => removeServersStep ids m

/-- Read phase of a queued callback: the `memento.get` snapshot.
`removeServers` performs no read. -/
def readPhase (m : Memento) : ChainOp → NotebookMap
  | ChainOp.track sid _ _ => mementoGetD m (getStateKey sid)
  | ChainOp.del sid _ _ => mementoGetD m (getStateKey sid)
  | ChainOp.removeServers _ => []

/-- Write phase of a queued callback, acting on the current memento using
the snapshot taken at the read phase. -/
def writePhase (m : Memento) (snap : NotebookMap) : ChainOp → Memento
  | ChainOp.track sid nb info => mementoUpdate m (getStateKey sid) (some (mapSet snap nb info))
  | ChainOp.del sid nb idx =>
    match List.lookup nb snap with
    | none => m
    | some r =>
      if r.cellIndex == some idx then
        mementoUpdate m (getStateKey sid) (some (mapDelete snap nb))
      else m
  | ChainOp.removeServers ids => removeServersStep ids m

/-- A queued callback together with its progress: `pc = 0` read pending,
`pc = 1` write pending, `pc = 2` settled.  `snap` is the snapshot taken
when the read ran. -/
structure ChainTask where
  op : ChainOp
  pc : Nat
  snap : NotebookMap
deriving Repr, DecidableEq

/-- Run one micro-step of a task against the shared memento. -/
def stepTask (m : Memento) (t : ChainTask) : Memento × ChainTask :=
  match t.pc with
  | 0 => (m, { t with pc := 1, snap := readPhase m t.op })
  | 1 => (writePhase m t.snap t.op, { t with pc := 2 })
  | _ => (m, t)

/-- Run a schedule: a list of task indices, each entry advancing that task
by one micro-step.  Arbitrary schedules can interleave the read and write
phases of different callbacks. -/
def runSched (m : Memento) (ts : List ChainTask) : List Nat → Memento × List ChainTask
  | [] => (m, ts)
  | i :: rest =>
    match ts[i]? with
    | none => runSched m ts rest
    | some t =>
      let r := stepTask m t
      runSched r.1 (ts.set i r.2) rest

/-- Fresh tasks for a list of queued operations. -/
def initTasks (ops : List ChainOp) : List ChainTask :=
  ops.map (fun op => { op := op, pc := 0, snap := [] })

/-- The schedule imposed by the promise chain: both micro-steps of callback
`i` run before any micro-step of callback `i+1`, giving `[0,0,1,1,...]`. -/
def chainedSched : Nat → List Nat
  | 0 => []
  | n + 1 => 0 :: 0 :: (chainedSched n).map (fun i => i + 1)

/-! Model of `JupyterUriProviderRegistration`. -/

/-- A record persisted under `REGISTRATION_ID_EXTENSION_OWNER_MEMENTO_KEY`. -/
structure RegRecord where
  providerId : String
  extensionId : String
deriving Repr, DecidableEq

/-- The part of an `IJupyterUriProvider` the registration inspects: its id,
whether it implements `getHandles` (and if so which handles it reports),
and the responses of `getServerUri` per handle (`none` models a provider
whose promise does not resolve with a value for that handle). -/
structure UriProvider where
  id : String
  hasGetHandles : Bool
  handles : List String
  uris : List (String × String)
deriving Repr, DecidableEq

/-- The fields of a host extension inspected by `loadOtherExtensionsImpl`:
its id, whether its `packageJSON.contributes.pythonRemoteServerProvider`
is set, and whether it is already active. -/
structure ExtensionInfo where
  id : String
  contributesPythonRemoteServerProvider : Bool
  isActive : Bool
deriving Repr, DecidableEq

/-- State of `JupyterUriProviderRegistration`: the `_providers` map, the
`providerExtensionMapping` map, the list stored in the global memento
under `REGISTRATION_ID_EXTENSION_OWNER_MEMENTO_KEY`, and how many times
`_onProvidersChanged` has fired. -/
structure RegState where
  providers : List (String × UriProvider)
  providerExtensionMapping : List (String × String)
  mementoRegistrationList : List RegRecord
  eventsFired : Nat
deriving Repr, DecidableEq

/-- `loadExistingProviderExtensionMapping` (lines 150-156): every persisted
record is written into the in-memory mapping. -/
def loadMapping (mapping : List (String × String)) (memento : List RegRecord) :
    List (String × String) :=
  memento.foldl (fun acc r => mapSet acc r.providerId r.extensionId) mapping

/-- `updateRegistrationInfo` (lines 139-149).  The method is decorated with
`@swallowExceptions()` and the memento update may reject; `updateSucceeds`
says whether the `globalMemento.update` call took effect.  Either way the
in-memory mapping has already been updated and no error escapes. -/
def updateRegistrationInfo (s : RegState) (providerId extensionId : String)
    (updateSucceeds : Bool) : RegState :=
  let mapping1 := mapSet (loadMapping s.providerExtensionMapping s.mementoRegistrationList)
    providerId extensionId
  let newList := mapping1.map (fun p => RegRecord.mk p.1 p.2)
  { s with
    providerExtensionMapping := mapping1,
    mementoRegistrationList :=
      if updateSucceeds then newList else s.mementoRegistrationList }

/-- `registerProvider` (lines 59-79).  When a provider with the same id
already exists the method throws before touching any state and before
firing `_onProvidersChanged`; otherwise it persists the registration info,
stores the wrapped provider and fires the event.  The thrown error is
returned as `Except.error` next to the (unchanged) state. -/
def registerProvider (s : RegState) (p : UriProvider) (extensionId : String)
    (updateSucceeds : Bool) : RegState × Except String Unit :=
  if (List.lookup p.id s.providers).isSome then
    (s, Except.error ("IJupyterUriProvider already exists with id " ++ p.id))
  else
    let s1 := updateRegistrationInfo s p.id extensionId updateSucceeds
    ({ s1 with
        providers := mapSet s1.providers p.id p,
        eventsFired := s1.eventsFired + 1 },
      Except.ok ())

/-- Errors thrown by `getJupyterServerUri` (lines 80-97). -/
inductive UriLookupError where
  | unknownServerUri
  | invalidHandle (providerId handle : String) (extensionId : Option String)
deriving Repr, DecidableEq

/-- `getJupyterServerUri` (lines 80-97): unknown provider ids and handles
missing from `getHandles()` are reported by throwing; otherwise the
provider's `getServerUri` response is returned. -/
def getJupyterServerUri (s : RegState) (id handle : String) :
    Except UriLookupError (Option String) :=
  match List.lookup id s.providers with
  | none => Except.error UriLookupError.unknownServerUri
  | some p =>
    if p.hasGetHandles then
      if handle ∈ p.handles then Except.ok (List.lookup handle p.uris)
      else
        Except.error (UriLookupError.invalidHandle p.id handle
          (List.lookup id s.providerExtensionMapping))
    else Except.ok (List.lookup handle p.uris)

/-- The extension filter of `loadOtherExtensionsImpl` (lines 106-117):
extensions that contribute `pythonRemoteServerProvider` or whose id occurs
in the persisted registration list, excluding the host extension
(`JVSC_EXTENSION_ID`, passed as `jvscExtensionId`). -/
def extensionsToActivate (mementoList : List RegRecord)
    (allExtensions : List ExtensionInfo) (jvscExtensionId : String) : List ExtensionInfo :=
  let extensionIds := mementoList.map (fun r => r.extensionId)
  (allExtensions.filter
      (fun e => e.contributesPythonRemoteServerProvider || extensionIds.contains e.id)).filter
    (fun e => e.id != jvscExtensionId)

/-- Line 116: activation is requested only for filtered extensions that are
not yet active (`e.isActive ? Promise.resolve() : e.activate()`). -/
def activationRequested (mementoList : List RegRecord)
    (allExtensions : List ExtensionInfo) (jvscExtensionId : String) : List ExtensionInfo :=
  (extensionsToActivate mementoList allExtensions jvscExtensionId).filter
    (fun e => !e.isActive)

/-! Association-list lemmas. -/

theorem beqSymmFalse {k1 k2 : String} (h : (k1 == k2) = false) : (k2 == k1) = false := by
  simp only [beq_eq_false_iff_ne] at h ⊢
  exact fun e => h e.symm

theorem lookup_cons {β : Type} (k : String) (a : String × β) (t : List (String × β)) :
    List.lookup k (a :: t) = if k == a.1 then some a.2 else List.lookup k t := by
  cases a with
  | mk k1 v1 => cases h : k == k1 <;> simp [List.lookup, h]

theorem lookup_replace {β : Type} (m : List (String × β)) (k : String) (v : β)
    (h : m.any (fun p => p.1 == k) = true) :
    List.lookup k (m.map (fun p => if p.1 == k then (k, v) else p)) = some v := by
  induction m with
  | nil => simp at h
  | cons a t ih =>
    simp only [List.any_cons, Bool.or_eq_true] at h
    rw [List.map_cons, lookup_cons]
    cases hak : a.1 == k with
    | true => simp [hak]
    | false =>
      have h3 : t.any (fun p => p.1 == k) = true := by simpa [hak] using h
      simp only [Bool.false_eq_true, if_false]
      rw [if_neg (by simp [beqSymmFalse hak])]
      exact ih h3

theorem lookup_append_single {β : Type} (m : List (String × β)) (k : String) (v : β)
    (h : m.any (fun p => p.1 == k) = false) :
    List.lookup k (m ++ [(k, v)]) = some v := by
  induction m with
  | nil => simp [List.lookup]
  | cons a t ih =>
    simp only [List.any_cons, Bool.or_eq_false_iff] at h
    rw [List.cons_append, lookup_cons]
    simp [beqSymmFalse h.1, ih h.2]

theorem lookup_mapSet_self {β : Type} (m : List (String × β)) (k : String) (v : β) :
    List.lookup k (mapSet m k v) = some v := by
  unfold mapSet
  by_cases hc : m.any (fun p => p.1 == k) = true
  · rw [if_pos hc]; exact lookup_replace m k v hc
  · rw [if_neg hc]
    exact lookup_append_single m k v (by simp only [Bool.not_eq_true] at hc; exact hc)

theorem lookup_replace_ne {β : Type} (m : List (String × β)) (k k2 : String) (v : β)
    (h : k2 ≠ k) :
    List.lookup k2 (m.map (fun p => if p.1 == k then (k, v) else p)) = List.lookup k2 m := by
  induction m with
  | nil => rfl
  | cons a t ih =>
    rw [List.map_cons, lookup_cons, lookup_cons]
    cases hak : a.1 == k with
    | true =>
      have ha : a.1 = k := by simpa using hak
      have hk2 : (k2 == a.1) = false := by simp [ha, h]
      have hk3 : (k2 == k) = false := by simp [h]
      simp only [eq_self_iff_true, if_true]
      rw [if_neg (by simp [hk3]), if_neg (by simp [hk2])]
      exact ih
    | false =>
      simp only [Bool.false_eq_true, if_false]
      cases hka : k2 == a.1 with
      | true => rfl
      | false =>
        simp only [Bool.false_eq_true, if_false]
        exact ih

theorem lookup_append_single_ne {β : Type} (m : List (String × β)) (k k2 : String) (v : β)
    (h : k2 ≠ k) :
    List.lookup k2 (m ++ [(k, v)]) = List.lookup k2 m := by
  induction m with
  | nil =>
    have : (k2 == k) = false := by simp [h]
    simp [List.lookup, this]
  | cons a t ih =>
    rw [List.cons_append, lookup_cons, lookup_cons]
    cases hka : k2 == a.1 <;> simp [hka, ih]

theorem lookup_mapSet_ne {β : Type} (m : List (String × β)) (k k2 : String) (v : β)
    (h : k2 ≠ k) :
    List.lookup k2 (mapSet m k v) = List.lookup k2 m := by
  unfold mapSet
  by_cases hc : m.any (fun p => p.1 == k) = true
  · rw [if_pos hc]; exact lookup_replace_ne m k k2 v h
  · rw [if_neg hc]; exact lookup_append_single_ne m k k2 v h

theorem lookup_mapDelete_self {β : Type} (m : List (String × β)) (k : String) :
    List.lookup k (mapDelete m k) = none := by
  induction m with
  | nil => rfl
  | cons a t ih =>
    unfold mapDelete at ih ⊢
    rw [List.filter_cons]
    cases hak : a.1 == k with
    | true =>
      have hb : (a.1 != k) = false := by simp [bne, hak]
      rw [hb, if_neg (by simp)]
      exact ih
    | false =>
      have hb : (a.1 != k) = true := by simp [bne, hak]
      rw [hb, if_pos rfl, lookup_cons, if_neg (by simp [beqSymmFalse hak])]
      exact ih

theorem lookup_mapDelete_ne {β : Type} (m : List (String × β)) (k k2 : String)
    (h : k2 ≠ k) :
    List.lookup k2 (mapDelete m k) = List.lookup k2 m := by
  induction m with
  | nil => rfl
  | cons a t ih =>
    unfold mapDelete at ih ⊢
    rw [List.filter_cons]
    cases hak : a.1 == k with
    | true =>
      have ha : a.1 = k := by simpa using hak
      have hk2 : (k2 == a.1) = false := by simp [ha, h]
      have hb : (a.1 != k) = false := by simp [bne, hak]
      rw [hb, if_neg (by simp), lookup_cons, if_neg (by simp [hk2])]
      exact ih
    | false =>
      have hb : (a.1 != k) = true := by simp [bne, hak]
      rw [hb, if_pos rfl, lookup_cons, lookup_cons]
      cases hka : k2 == a.1 with
      | true => rfl
      | false =>
        simp only [Bool.false_eq_true, if_false]
        exact ih

theorem mem_of_lookup_eq_some {β : Type} {m : List (String × β)} {k : String} {v : β}
    (h : List.lookup k m = some v) : (k, v) ∈ m := by
  induction m with
  | nil => simp [List.lookup] at h
  | cons a t ih =>
    rw [lookup_cons] at h
    cases hka : k == a.1 with
    | true =>
      rw [hka] at h
      simp only [if_true] at h
      have hv : a.2 = v := by simpa using h
      have hk : k = a.1 := by simpa using hka
      exact List.mem_cons.mpr (Or.inl (by rw [hk, ← hv]))
    | false =>
      rw [hka] at h
      simp only [Bool.false_eq_true, if_false] at h
      exact List.mem_cons.mpr (Or.inr (ih h))

theorem mementoGetD_update_self (m : Memento) (k : String) (v : NotebookMap) :
    mementoGetD (mementoUpdate m k (some v)) k = v := by
  unfold mementoGetD mementoUpdate
  rw [lookup_mapSet_self]
  rfl

theorem getStateKey_injective {s t : String} (h : getStateKey s = getStateKey t) : s = t := by
  have hd := congrArg String.data h
  simp only [getStateKey, String.data_append] at hd
  exact String.ext (List.append_cancel_left hd)

theorem lookup_removeServersStep (ids : List String) (m : Memento) (key : String) :
    List.lookup key (removeServersStep ids m) =
      if key ∈ ids.map getStateKey then none else List.lookup key m := by
  induction ids generalizing m with
  | nil => simp [removeServersStep]
  | cons a t ih =>
    have step : removeServersStep (a :: t) m =
        removeServersStep t (mementoUpdate m (getStateKey a) none) := rfl
    rw [step, ih]
    by_cases hk : key = getStateKey a
    · subst hk
      simp [mementoUpdate, lookup_mapDelete_self]
    · simp only [mementoUpdate]
      rw [lookup_mapDelete_ne m (getStateKey a) key hk]
      simp [List.mem_cons, hk]

/-! Promise-chain lemmas. -/

theorem lookup_trackStep_self (sid nb : String) (info : CellExecutionInfo) (m : Memento) :
    List.lookup nb (mementoGetD (trackStep sid nb info m) (getStateKey sid)) = some info := by
  unfold trackStep
  rw [mementoGetD_update_self]
  exact lookup_mapSet_self _ nb info

theorem applyOp_eq_phases (m : Memento) (op : ChainOp) :
    applyOp m op = writePhase m (readPhase m op) op := by
  cases op with
  | track sid nb info => rfl
  | removeServers ids => rfl
  | del sid nb idx =>
    simp only [applyOp, readPhase, writePhase, deleteStep]
    cases List.lookup nb (mementoGetD m (getStateKey sid)) with
    | none => rfl
    | some r =>
      dsimp only
      by_cases hc : (r.cellIndex == some idx) = true
      · rw [if_pos hc, if_pos hc]
      · rw [if_neg hc, if_neg hc]

theorem runSched_shift (sched : List Nat) : ∀ (m : Memento) (t0 : ChainTask) (ts : List ChainTask),
    runSched m (t0 :: ts) (sched.map (fun i => i + 1)) =
      ((runSched m ts sched).1, t0 :: (runSched m ts sched).2) := by
  induction sched with
  | nil => intro m t0 ts; rfl
  | cons i rest ih =>
    intro m t0 ts
    rw [List.map_cons]
    show runSched m (t0 :: ts) ((i + 1) :: rest.map (fun i => i + 1)) = _
    rw [runSched, runSched]
    rw [List.getElem?_cons_succ]
    cases h : ts[i]? with
    | none => rw [ih]
    | some t =>
      simp only [List.set_cons_succ]
      rw [ih]

theorem chainedSched_getElem? (n : Nat) : ∀ p : Nat,
    (chainedSched n)[p]? = if p < 2 * n then some (p / 2) else none := by
  induction n with
  | zero => intro p; simp [chainedSched]
  | succ k ih =>
    intro p
    match p with
    | 0 => simp [chainedSched]
    | 1 =>
      simp [chainedSched]
      omega
    | Nat.succ (Nat.succ q) =>
      show (chainedSched (k + 1))[q + 2]? = _
      rw [chainedSched]
      rw [List.getElem?_cons_succ, List.getElem?_cons_succ, List.getElem?_map, ih]
      by_cases hq : q < 2 * k
      · rw [if_pos hq, if_pos (by omega)]
        simp only [Option.map_some']
        have : q / 2 + 1 = (q + 2) / 2 := by omega
        rw [this]
      · rw [if_neg hq, if_neg (by omega)]
        rfl

theorem runSched_chained : ∀ (ops : List ChainOp) (m : Memento),
    ∃ ts2, runSched m (initTasks ops) (chainedSched ops.length) = (ops.foldl applyOp m, ts2) ∧
      ts2.all (fun t => t.pc == 2) = true := by
  intro ops
  induction ops with
  | nil => intro m; exact ⟨[], rfl, rfl⟩
  | cons op rest ih =>
    intro m
    obtain ⟨ts2, hrun, hall⟩ := ih (applyOp m op)
    refine ⟨{ op := op, pc := 2, snap := readPhase m op } :: ts2, ?_, ?_⟩
    · show runSched m ({ op := op, pc := 0, snap := [] } :: initTasks rest)
        (0 :: 0 :: (chainedSched rest.length).map (fun i => i + 1)) = _
      rw [runSched]
      simp only [List.getElem?_cons_zero]
      show runSched m ((List.set _ 0 _)) (0 :: (chainedSched rest.length).map (fun i => i + 1)) = _
      simp only [List.set_cons_zero]
      rw [runSched]
      simp only [List.getElem?_cons_zero]
      show runSched (writePhase m (readPhase m op) op)
        (List.set _ 0 _) ((chainedSched rest.length).map (fun i => i + 1)) = _
      simp only [List.set_cons_zero]
      rw [← applyOp_eq_phases, runSched_shift, hrun]
      rfl
    · simp only [List.all_cons, hall]
      rfl

/-! Lemmas about the iopub message handler. -/

theorem applyStartTime_of_truthy (jsNow : Nat) (msg : IOPubMessage) (info : CellExecutionInfo)
    (h : truthyNat info.startTime = true) : applyStartTime jsNow msg info = info := by
  unfold applyStartTime
  rw [if_neg (by simp [h])]

theorem applyStartTime_msg_id (jsNow : Nat) (msg : IOPubMessage) (info : CellExecutionInfo) :
    (applyStartTime jsNow msg info).msg_id = info.msg_id := by
  unfold applyStartTime
  split <;> rfl

theorem applyStartTime_executionCount (jsNow : Nat) (msg : IOPubMessage)
    (info : CellExecutionInfo) :
    (applyStartTime jsNow msg info).executionCount = info.executionCount := by
  unfold applyStartTime
  split <;> rfl

theorem recvStep_fields (jsNow : Nat) (k : KernelConnectionMetadata) (nb : String)
    (msg : IOPubMessage) (s : CellTrackingState) (i : CellExecutionInfo)
    (h : s.info = some i) :
    ∃ i2, (recvStep jsNow k nb msg s).info = some i2 ∧
      (i2.startTime = i.startTime ∨ truthyNat i.startTime = false) ∧
      (i2.executionCount = i.executionCount ∨ truthyNat i.executionCount = false) := by
  have hinfo1st : (applyStartTime jsNow msg i).startTime = i.startTime ∨
      truthyNat i.startTime = false := by
    cases hst : truthyNat i.startTime with
    | true => exact Or.inl (by rw [applyStartTime_of_truthy jsNow msg i hst])
    | false => exact Or.inr rfl
  unfold recvStep
  by_cases hsub : (!s.subscribed) = true
  · rw [if_pos hsub]
    exact ⟨i, h, Or.inl rfl, Or.inl rfl⟩
  · rw [if_neg hsub, h]
    dsimp only
    by_cases hguard : (truthyStr i.msg_id && msg.parentHeaderMsgId == i.msg_id) = true
    · rw [if_pos hguard]
      cases hec : msg.executionCount with
      | none =>
        dsimp only
        exact ⟨applyStartTime jsNow msg i, rfl, hinfo1st,
          Or.inl (applyStartTime_executionCount jsNow msg i)⟩
      | some ec =>
        dsimp only
        by_cases h1 : (!truthyNat (applyStartTime jsNow msg i).executionCount) = true
        · rw [if_pos h1]
          by_cases h2 : ((applyStartTime jsNow msg i).executionCount != some ec) = true
          · rw [if_pos h2]
            refine ⟨_, rfl, hinfo1st, Or.inr ?_⟩
            rw [← applyStartTime_executionCount jsNow msg i]
            simpa using h1
          · rw [if_neg h2]
            exact ⟨applyStartTime jsNow msg i, rfl, hinfo1st,
              Or.inl (applyStartTime_executionCount jsNow msg i)⟩
        · rw [if_neg h1]
          exact ⟨applyStartTime jsNow msg i, rfl, hinfo1st,
            Or.inl (applyStartTime_executionCount jsNow msg i)⟩
    · rw [if_neg hguard]
      exact ⟨i, h, Or.inl rfl, Or.inl rfl⟩

theorem recvRun_fields (jsNow : Nat) (k : KernelConnectionMetadata) (nb : String)
    (msgs : List IOPubMessage) : ∀ (s : CellTrackingState) (i : CellExecutionInfo),
    s.info = some i →
    ∃ i2, (recvRun jsNow k nb msgs s).info = some i2 ∧
      (i2.startTime = i.startTime ∨ truthyNat i.startTime = false) ∧
      (i2.executionCount = i.executionCount ∨ truthyNat i.executionCount = false) := by
  induction msgs with
  | nil => exact fun s i h => ⟨i, h, Or.inl rfl, Or.inl rfl⟩
  | cons msg rest ih =>
    intro s i h
    obtain ⟨i1, h1, hst1, hec1⟩ := recvStep_fields jsNow k nb msg s i h
    obtain ⟨i2, h2, hst2, hec2⟩ := ih (recvStep jsNow k nb msg s) i1 h1
    refine ⟨i2, h2, ?_, ?_⟩
    · rcases hst1 with hst1 | hst1
      · rcases hst2 with hst2 | hst2
        · exact Or.inl (hst2.trans hst1)
        · rw [hst1] at hst2
          exact Or.inr hst2
      · exact Or.inr hst1
    · rcases hec1 with hec1 | hec1
      · rcases hec2 with hec2 | hec2
        · exact Or.inl (hec2.trans hec1)
        · rw [hec1] at hec2
          exact Or.inr hec2
      · exact Or.inr hec1

/-- The quantity `persistCount + (1 if still subscribed)`: it never
increases across handler invocations, because the only branch that
persists also disposes the subscription. -/
def trackMeasure (s : CellTrackingState) : Nat :=
  s.persistCount + (if s.subscribed then 1 else 0)

theorem recvStep_measure (jsNow : Nat) (k : KernelConnectionMetadata) (nb : String)
    (msg : IOPubMessage) (s : CellTrackingState) :
    trackMeasure (recvStep jsNow k nb msg s) ≤ trackMeasure s := by
  unfold recvStep
  by_cases hsub : (!s.subscribed) = true
  · rw [if_pos hsub]
  · rw [if_neg hsub]
    have hsub2 : s.subscribed = true := by
      cases hs : s.subscribed
      · rw [hs] at hsub
        exact absurd rfl hsub
      · rfl
    cases hi : s.info with
    | none => exact Nat.le_refl _
    | some i =>
      dsimp only
      by_cases hguard : (truthyStr i.msg_id && msg.parentHeaderMsgId == i.msg_id) = true
      · rw [if_pos hguard]
        cases hec : msg.executionCount with
        | none => simp [trackMeasure]
        | some ec =>
          dsimp only
          by_cases h1 : (!truthyNat (applyStartTime jsNow msg i).executionCount) = true
          · rw [if_pos h1]
            by_cases h2 : ((applyStartTime jsNow msg i).executionCount != some ec) = true
            · rw [if_pos h2]
              unfold trackMeasure
              dsimp only
              rw [hsub2]
              by_cases hw : trackLastExecutionWrites k
                  { applyStartTime jsNow msg i with executionCount := some ec } = true
              · rw [if_pos hw]
                simp only [Bool.false_eq_true, if_false, eq_self_iff_true, if_true]
                omega
              · rw [if_neg hw]
                simp only [Bool.false_eq_true, if_false, eq_self_iff_true, if_true]
                omega
            · rw [if_neg h2]
              simp [trackMeasure]
          · rw [if_neg h1]
            simp [trackMeasure]
      · rw [if_neg hguard]

theorem recvRun_measure (jsNow : Nat) (k : KernelConnectionMetadata) (nb : String)
    (msgs : List IOPubMessage) : ∀ s : CellTrackingState,
    trackMeasure (recvRun jsNow k nb msgs s) ≤ trackMeasure s := by
  induction msgs with
  | nil => exact fun s => Nat.le_refl _
  | cons msg rest ih =>
    intro s
    exact Nat.le_trans (ih (recvStep jsNow k nb msg s)) (recvStep_measure jsNow k nb msg s)

theorem trackLastExecution_of_msgid (k : KernelConnectionMetadata) (nb : String)
    (info : CellExecutionInfo) (m : Memento)
    (hmid : truthyStr info.msg_id = true) (hrem : k.isRemote = true) :
    trackLastExecution k nb info m = trackStep k.serverId nb info m := by
  unfold trackLastExecution
  rw [if_neg (by simp [hmid]), if_neg (by simp [hrem])]

theorem recvStep_new_count (jsNow : Nat) (k : KernelConnectionMetadata) (nb : String)
    (msg : IOPubMessage) (s : CellTrackingState) (i : CellExecutionInfo) (ec : Nat)
    (hsub : s.subscribed = true) (h : s.info = some i)
    (hguard : (truthyStr i.msg_id && msg.parentHeaderMsgId == i.msg_id) = true)
    (hec : msg.executionCount = some ec)
    (hnt : truthyNat i.executionCount = false)
    (hne : i.executionCount ≠ some ec) :
    recvStep jsNow k nb msg s =
      { info := some { applyStartTime jsNow msg i with executionCount := some ec },
        subscribed := false,
        memento := trackLastExecution k nb
          { applyStartTime jsNow msg i with executionCount := some ec } s.memento,
        persistCount := s.persistCount +
          (if trackLastExecutionWrites k
              { applyStartTime jsNow msg i with executionCount := some ec }
            then 1 else 0) } := by
  have hnt1 : truthyNat (applyStartTime jsNow msg i).executionCount = false := by
    rw [applyStartTime_executionCount]
    exact hnt
  have hne1 : ((applyStartTime jsNow msg i).executionCount != some ec) = true := by
    rw [applyStartTime_executionCount]
    simpa using hne
  unfold recvStep
  rw [if_neg (by simp [hsub]), h]
  dsimp only
  rw [if_pos hguard, hec]
  dsimp only
  rw [if_pos (by simp [hnt1]), if_pos hne1]

/-! Registration lemmas and concrete fixtures. -/

theorem mem_newList (mapping : List (String × String)) (pid eid : String)
    (h : List.lookup pid mapping = some eid) :
    RegRecord.mk pid eid ∈ mapping.map (fun q => RegRecord.mk q.1 q.2) :=
  List.mem_map.mpr ⟨(pid, eid), mem_of_lookup_eq_some h, rfl⟩

theorem mem_activationRequested (mementoList : List RegRecord) (allExt : List ExtensionInfo)
    (jvsc : String) (e : ExtensionInfo) :
    e ∈ activationRequested mementoList allExt jvsc ↔
      (e ∈ allExt ∧ e.isActive = false ∧
       (e.contributesPythonRemoteServerProvider = true ∨
         e.id ∈ mementoList.map (fun r => r.extensionId)) ∧
       e.id ≠ jvsc) := by
  unfold activationRequested extensionsToActivate
  simp only [List.mem_filter, Bool.or_eq_true, bne_iff_ne, Bool.not_eq_true',
    List.contains, List.elem_iff]
  tauto

/-- A sample record with every field populated, tracked for cell index `0`. -/
def infoW : CellExecutionInfo :=
  { msg_id := some "m1", kernelId := some "k1", cellIndex := some 0,
    startTime := some 5, executionCount := some 1 }

/-- A sample record as `anyMessageHandler` creates it on `send`:
no start time and no execution count yet. -/
def infoStartW : CellExecutionInfo :=
  { msg_id := some "m1", kernelId := some "k1", cellIndex := some 0,
    startTime := none, executionCount := none }

def kernelRemoteW : KernelConnectionMetadata := { isRemote := true, serverId := "server1" }

def kernelLocalW : KernelConnectionMetadata := { isRemote := false, serverId := "" }

def mementoW : Memento := [(getStateKey "server1", [("nb1", infoW)])]

def trackerStateW : TrackerState :=
  { executedCells := [("cell1", infoW)], subscriptionCount := 0, memento := mementoW }

/-- An iopub message carrying a terminal execution count for message `m1`. -/
def msgW : IOPubMessage :=
  { parentHeaderMsgId := some "m1", headerDate := some 50, executionCount := some 7 }

def cellStateW : CellTrackingState :=
  { info := some infoStartW, subscribed := true, memento := [], persistCount := 0 }

def opsW : List ChainOp :=
  [ChainOp.track "server1" "nb1" infoW, ChainOp.del "server1" "nb1" 0]

def providerP1 : UriProvider := { id := "p1", hasGetHandles := false, handles := [], uris := [] }

def regStateEmpty : RegState :=
  { providers := [], providerExtensionMapping := [], mementoRegistrationList := [],
    eventsFired := 0 }

def regStateWithP1 : RegState := (registerProvider regStateEmpty providerP1 "ext.a" true).1

def extAW : ExtensionInfo :=
  { id := "ext.a", contributesPythonRemoteServerProvider := false, isActive := false }

/-- A provider that implements `getHandles`, reporting the single handle `h1`. -/
def providerH : UriProvider :=
  { id := "p2", hasGetHandles := true, handles := ["h1"], uris := [("h1", "uri1")] }

def regStateWithH : RegState := (registerProvider regStateEmpty providerH "ext.h" true).1

/-! Claim theorems. -/

/-- C1 counterexample: with a remote kernel, a non-untitled notebook and a
persisted record whose stored cell index (0) matches the current cell's
index (0), `deleteTrackedCellExecution` deletes the record, whereas the
claim states that a matching index keeps it. -/
theorem deleteTracked_matchingIndexDeleted :
    infoW.cellIndex = some 0 ∧
    deleteTrackedCellExecution "nb1" false kernelRemoteW 0 mementoW =
      Except.ok [(getStateKey "server1", [])] ∧
    getLastTrackedCellExecution "nb1" false kernelRemoteW [(getStateKey "server1", [])] =
      none :=
  ⟨rfl, rfl, rfl⟩

/-- C1 (amended): for a remote kernel and a non-untitled notebook whose
record is present, the queued step of `deleteTrackedCellExecution` deletes
the record exactly when the stored cell index matches the current cell's
index; when it does not match, the persisted state is left unchanged. -/
theorem deleteTracked_deletesIffIndexMatches (nb : String) (k : KernelConnectionMetadata)
    (idx : Nat) (m : Memento) (r : CellExecutionInfo)
    (hremote : k.isRemote = true)
    (hr : List.lookup nb (mementoGetD m (getStateKey k.serverId)) = some r) :
    (r.cellIndex = some idx →
      ∃ m2, deleteTrackedCellExecution nb false k idx m = Except.ok m2 ∧
        List.lookup nb (mementoGetD m2 (getStateKey k.serverId)) = none) ∧
    (r.cellIndex ≠ some idx →
      deleteTrackedCellExecution nb false k idx m = Except.ok m) := by
  have hred : deleteTrackedCellExecution nb false k idx m = deleteStep k.serverId nb idx m := by
    unfold deleteTrackedCellExecution
    rw [if_neg (by simp), if_neg (by simp [hremote])]
  constructor
  · intro hidx
    refine ⟨mementoUpdate m (getStateKey k.serverId)
      (some (mapDelete (mementoGetD m (getStateKey k.serverId)) nb)), ?_, ?_⟩
    · rw [hred]
      simp only [deleteStep]
      rw [hr]
      dsimp only
      rw [if_pos (by simp [hidx])]
    · rw [mementoGetD_update_self]
      exact lookup_mapDelete_self _ nb
  · intro hidx
    rw [hred]
    simp only [deleteStep]
    rw [hr]
    dsimp only
    rw [if_neg (by simp [hidx])]

theorem deleteTracked_deletesIffIndexMatches_witness :
    (∃ m2, deleteTrackedCellExecution "nb1" false kernelRemoteW 0 mementoW = Except.ok m2 ∧
      List.lookup "nb1" (mementoGetD m2 (getStateKey kernelRemoteW.serverId)) = none) ∧
    deleteTrackedCellExecution "nb1" false kernelRemoteW 3 mementoW = Except.ok mementoW :=
  ⟨(deleteTracked_deletesIffIndexMatches "nb1" kernelRemoteW 0 mementoW infoW rfl rfl).1 rfl,
   (deleteTracked_deletesIffIndexMatches "nb1" kernelRemoteW 3 mementoW infoW rfl rfl).2
     (by decide)⟩

/-- C9: with a remote kernel and a non-untitled notebook but no persisted
record for the notebook, the queued read-modify-write step of
`deleteTrackedCellExecution` throws (the JavaScript code reads `.cellIndex`
of `undefined`) rather than completing without error: the lookup is not
guarded. -/
theorem deleteTracked_missingRecordThrows :
    deleteTrackedCellExecution "nb1" false kernelRemoteW 0 [] = Except.error () :=
  rfl

/-- C6: for an untitled notebook or a non-remote kernel connection,
`getLastTrackedCellExecution` returns `undefined` and `trackCellExecution`
returns without subscribing to messages or changing any state. -/
theorem trackingOnlyRemoteSavedNotebooks (nbUri cellUri : String) (isUntitled : Bool)
    (k : KernelConnectionMetadata) (st : TrackerState) (hasSession : Bool)
    (h : isUntitled = true ∨ k.isRemote = false) :
    getLastTrackedCellExecution nbUri isUntitled k st.memento = none ∧
    trackCellExecution st cellUri isUntitled k hasSession = st := by
  rcases h with h | h
  · subst h
    constructor
    · unfold getLastTrackedCellExecution
      rw [if_pos rfl]
    · unfold trackCellExecution
      rw [if_pos (by simp)]
  · constructor
    · unfold getLastTrackedCellExecution
      by_cases hu : isUntitled = true
      · rw [if_pos hu]
      · rw [if_neg hu, if_pos (by simp [h])]
    · unfold trackCellExecution
      rw [if_pos (by simp [h])]

theorem trackingOnlyRemoteSavedNotebooks_witness :
    getLastTrackedCellExecution "nb1" false kernelLocalW trackerStateW.memento = none ∧
    trackCellExecution trackerStateW "cell1" false kernelLocalW true = trackerStateW :=
  trackingOnlyRemoteSavedNotebooks "nb1" "cell1" false kernelLocalW trackerStateW true
    (Or.inr rfl)

/-- C3: on a remote kernel, when an iopub message whose parent header
msg_id matches the tracked message id carries a new terminal execution
count, the handler stores the count and the persisted record under
`getStateKey serverId` at the notebook's URI is overwritten with the new
`CellExecutionInfo`. -/
theorem newExecutionCountOverwritesPersistedRecord (jsNow : Nat)
    (k : KernelConnectionMetadata) (nb : String) (msg : IOPubMessage)
    (s : CellTrackingState) (i : CellExecutionInfo) (mid : String) (ec : Nat)
    (hremote : k.isRemote = true) (hsub : s.subscribed = true) (hinfo : s.info = some i)
    (hmid : i.msg_id = some mid) (hmidne : mid ≠ "")
    (hparent : msg.parentHeaderMsgId = some mid)
    (hec : msg.executionCount = some ec)
    (hnotyet : truthyNat i.executionCount = false)
    (hnew : i.executionCount ≠ some ec) :
    ∃ i2, (recvStep jsNow k nb msg s).info = some i2 ∧
      i2.executionCount = some ec ∧
      List.lookup nb
        (mementoGetD (recvStep jsNow k nb msg s).memento (getStateKey k.serverId)) =
        some i2 := by
  have hguard : (truthyStr i.msg_id && msg.parentHeaderMsgId == i.msg_id) = true := by
    rw [hmid, hparent]
    simp [truthyStr, hmidne]
  rw [recvStep_new_count jsNow k nb msg s i ec hsub hinfo hguard hec hnotyet hnew]
  refine ⟨_, rfl, rfl, ?_⟩
  have hmid2 : truthyStr
      ({ applyStartTime jsNow msg i with executionCount := some ec } :
        CellExecutionInfo).msg_id = true := by
    show truthyStr (applyStartTime jsNow msg i).msg_id = true
    rw [applyStartTime_msg_id, hmid]
    simp [truthyStr, hmidne]
  rw [trackLastExecution_of_msgid k nb _ s.memento hmid2 hremote]
  exact lookup_trackStep_self k.serverId nb _ s.memento

theorem newExecutionCountOverwritesPersistedRecord_witness :
    ∃ i2, (recvStep 100 kernelRemoteW "nb1" msgW cellStateW).info = some i2 ∧
      i2.executionCount = some 7 ∧
      List.lookup "nb1"
        (mementoGetD (recvStep 100 kernelRemoteW "nb1" msgW cellStateW).memento
          (getStateKey kernelRemoteW.serverId)) = some i2 :=
  newExecutionCountOverwritesPersistedRecord 100 kernelRemoteW "nb1" msgW cellStateW
    infoStartW "m1" 7 rfl rfl rfl rfl (by decide) rfl rfl rfl (by decide)

/-- C10: within one tracked execution, processing any sequence of received
iopub messages never overwrites a `startTime` or `executionCount` that is
already truthy, the record is persisted at most once, and when it has been
persisted the message subscription has been disposed. -/
theorem trackedExecutionFieldsWrittenOnce (jsNow : Nat) (k : KernelConnectionMetadata)
    (nb : String) (msgs : List IOPubMessage) (s : CellTrackingState) (i : CellExecutionInfo)
    (hinfo : s.info = some i) (hpc : s.persistCount = 0) :
    (∃ i2, (recvRun jsNow k nb msgs s).info = some i2 ∧
      (truthyNat i.startTime = true → i2.startTime = i.startTime) ∧
      (truthyNat i.executionCount = true → i2.executionCount = i.executionCount)) ∧
    (recvRun jsNow k nb msgs s).persistCount ≤ 1 ∧
    ((recvRun jsNow k nb msgs s).persistCount = 1 →
      (recvRun jsNow k nb msgs s).subscribed = false) := by
  have hm := recvRun_measure jsNow k nb msgs s
  have hms : trackMeasure s ≤ 1 := by
    unfold trackMeasure
    rw [hpc]
    cases hsb : s.subscribed <;> simp
  have hle : trackMeasure (recvRun jsNow k nb msgs s) ≤ 1 := Nat.le_trans hm hms
  obtain ⟨i2, h2, hst, hec⟩ := recvRun_fields jsNow k nb msgs s i hinfo
  refine ⟨⟨i2, h2, ?_, ?_⟩, ?_, ?_⟩
  · intro ht
    rcases hst with h | h
    · exact h
    · rw [ht] at h
      exact Bool.noConfusion h
  · intro ht
    rcases hec with h | h
    · exact h
    · rw [ht] at h
      exact Bool.noConfusion h
  · unfold trackMeasure at hle
    cases hs : (recvRun jsNow k nb msgs s).subscribed <;> rw [hs] at hle <;> simp at hle <;>
      omega
  · intro h1
    unfold trackMeasure at hle
    rw [h1] at hle
    cases hs : (recvRun jsNow k nb msgs s).subscribed
    · rfl
    · rw [hs] at hle
      simp at hle

theorem trackedExecutionFieldsWrittenOnce_witness :
    (∃ i2, (recvRun 100 kernelRemoteW "nb1" [msgW, msgW] cellStateW).info = some i2 ∧
      (truthyNat infoStartW.startTime = true → i2.startTime = infoStartW.startTime) ∧
      (truthyNat infoStartW.executionCount = true →
        i2.executionCount = infoStartW.executionCount)) ∧
    (recvRun 100 kernelRemoteW "nb1" [msgW, msgW] cellStateW).persistCount ≤ 1 ∧
    ((recvRun 100 kernelRemoteW "nb1" [msgW, msgW] cellStateW).persistCount = 1 →
      (recvRun 100 kernelRemoteW "nb1" [msgW, msgW] cellStateW).subscribed = false) :=
  trackedExecutionFieldsWrittenOnce 100 kernelRemoteW "nb1" [msgW, msgW] cellStateW
    infoStartW rfl rfl

/-- C4: the queued step of `onDidRemoveServerUris` clears the persisted
per-server state key of every removed server and leaves the state keys of
servers not in the removed list unchanged. -/
theorem removedServersStateCleared (ids : List String) (m : Memento) (sid tid : String)
    (hin : sid ∈ ids) (hout : tid ∉ ids) :
    List.lookup (getStateKey sid) (removeServersStep ids m) = none ∧
    List.lookup (getStateKey tid) (removeServersStep ids m) =
      List.lookup (getStateKey tid) m := by
  constructor
  · rw [lookup_removeServersStep]
    rw [if_pos (List.mem_map.mpr ⟨sid, hin, rfl⟩)]
  · rw [lookup_removeServersStep]
    have hn : getStateKey tid ∉ ids.map getStateKey := by
      intro hmem
      obtain ⟨x, hx, he⟩ := List.mem_map.mp hmem
      rw [getStateKey_injective he] at hx
      exact hout hx
    rw [if_neg hn]

theorem removedServersStateCleared_witness :
    List.lookup (getStateKey "s1") (removeServersStep ["s1", "s2"] mementoW) = none ∧
    List.lookup (getStateKey "server1") (removeServersStep ["s1", "s2"] mementoW) =
      List.lookup (getStateKey "server1") mementoW :=
  removedServersStateCleared ["s1", "s2"] mementoW "s1" "server1" (by decide) (by decide)

/-- C2: running the queued callbacks under the promise-chain schedule makes
every read-modify-write step act on the memento left by the previous
step (the final memento is the sequential fold of the atomic operations,
with every task settled), and in the chained schedule every micro-step of
an earlier callback precedes every micro-step of a later one, so no two
read-modify-write cycles interleave. -/
theorem chainSerializesPersistence (m : Memento) (ops : List ChainOp) :
    (∃ ts2, runSched m (initTasks ops) (chainedSched ops.length) =
        (ops.foldl applyOp m, ts2) ∧ ts2.all (fun t => t.pc == 2) = true) ∧
    (∀ p q i j : Nat, (chainedSched ops.length)[p]? = some i →
      (chainedSched ops.length)[q]? = some j → i < j → p < q) := by
  refine ⟨runSched_chained ops m, ?_⟩
  intro p q i j hp hq hij
  rw [chainedSched_getElem?] at hp hq
  split at hp
  · split at hq
    · have hpi : p / 2 = i := Option.some.inj hp
      have hqj : q / 2 = j := Option.some.inj hq
      omega
    · simp at hq
  · simp at hp

theorem chainSerializesPersistence_witness :
    (∃ ts2, runSched [] (initTasks opsW) (chainedSched opsW.length) =
        (opsW.foldl applyOp [], ts2) ∧ ts2.all (fun t => t.pc == 2) = true) ∧
    (1 : Nat) < 2 :=
  ⟨(chainSerializesPersistence [] opsW).1,
   (chainSerializesPersistence [] opsW).2 1 2 0 1 (by decide) (by decide) (by decide)⟩

/-- C5 counterexample: `registerProvider` is a public operation, yet
registering a provider whose id is already registered propagates an error
to the caller (the method throws), contradicting the claim that no public
operation propagates an error. -/
theorem registerProviderThrowsToCaller :
    (registerProvider regStateWithP1 providerP1 "ext.b" true).2 =
      Except.error "IJupyterUriProvider already exists with id p1" :=
  rfl

/-- C5 (amended): errors in the background persistence path are swallowed
(a failing global-memento update inside `updateRegistrationInfo` does not
change the outcome of `registerProvider`), but two public operations do
propagate errors to their callers: `registerProvider` throws on a
duplicate provider id, and `getJupyterServerUri` throws both on an unknown
provider id and on a handle the provider's `getHandles()` does not
report. -/
theorem errorHandlingPolicy (s1 s2 s3 s4 : RegState) (p q r : UriProvider)
    (e1 e3 provId handle provId2 handle2 : String)
    (hdup : (List.lookup p.id s1.providers).isSome = true)
    (hunknown : List.lookup provId s2.providers = none)
    (hfresh : List.lookup q.id s3.providers = none)
    (hfound : List.lookup provId2 s4.providers = some r)
    (hhandles : r.hasGetHandles = true)
    (hbad : handle2 ∉ r.handles) :
    (registerProvider s1 p e1 true).2 =
        Except.error ("IJupyterUriProvider already exists with id " ++ p.id) ∧
    getJupyterServerUri s2 provId handle = Except.error UriLookupError.unknownServerUri ∧
    getJupyterServerUri s4 provId2 handle2 =
        Except.error (UriLookupError.invalidHandle r.id handle2
          (List.lookup provId2 s4.providerExtensionMapping)) ∧
    (registerProvider s3 q e3 false).2 = Except.ok () := by
  refine ⟨?_, ?_, ?_, ?_⟩
  · unfold registerProvider
    rw [if_pos hdup]
  · unfold getJupyterServerUri
    rw [hunknown]
  · unfold getJupyterServerUri
    rw [hfound]
    dsimp only
    rw [if_pos hhandles, if_neg hbad]
  · unfold registerProvider
    rw [if_neg (by simp [hfresh])]

theorem errorHandlingPolicy_witness :
    (registerProvider regStateWithP1 providerP1 "ext.b" true).2 =
        Except.error ("IJupyterUriProvider already exists with id " ++ providerP1.id) ∧
    getJupyterServerUri regStateEmpty "px" "h1" =
        Except.error UriLookupError.unknownServerUri ∧
    getJupyterServerUri regStateWithH "p2" "h9" =
        Except.error (UriLookupError.invalidHandle providerH.id "h9"
          (List.lookup "p2" regStateWithH.providerExtensionMapping)) ∧
    (registerProvider regStateEmpty providerP1 "ext.a" false).2 = Except.ok () :=
  errorHandlingPolicy regStateWithP1 regStateEmpty regStateEmpty regStateWithH
    providerP1 providerP1 providerH "ext.b" "ext.a" "px" "h1" "p2" "h9"
    rfl rfl rfl rfl rfl (by decide)

/-- C7: a successful `registerProvider` persists the pair
`{providerId, extensionId}` into the global memento's registration list,
and the lazy load step requests activation of exactly the not-yet-active
extensions that contribute `pythonRemoteServerProvider` or whose id occurs
in that persisted list, excluding the host extension itself. -/
theorem registrationPersistedAndLazyActivation (s : RegState) (p : UriProvider)
    (eid : String) (allExt : List ExtensionInfo) (jvsc : String) (e : ExtensionInfo)
    (hfresh : List.lookup p.id s.providers = none) :
    RegRecord.mk p.id eid ∈ ((registerProvider s p eid true).1).mementoRegistrationList ∧
    (e ∈ activationRequested ((registerProvider s p eid true).1).mementoRegistrationList
        allExt jvsc ↔
      (e ∈ allExt ∧ e.isActive = false ∧
       (e.contributesPythonRemoteServerProvider = true ∨
         e.id ∈ ((registerProvider s p eid true).1).mementoRegistrationList.map
           (fun r => r.extensionId)) ∧
       e.id ≠ jvsc)) := by
  have hred : (registerProvider s p eid true).1.mementoRegistrationList =
      (mapSet (loadMapping s.providerExtensionMapping s.mementoRegistrationList) p.id
        eid).map (fun q => RegRecord.mk q.1 q.2) := by
    unfold registerProvider
    rw [if_neg (by simp [hfresh])]
    rfl
  constructor
  · rw [hred]
    exact mem_newList _ p.id eid (lookup_mapSet_self _ p.id eid)
  · exact mem_activationRequested _ allExt jvsc e

theorem registrationPersistedAndLazyActivation_witness :
    RegRecord.mk providerP1.id "ext.a" ∈
      ((registerProvider regStateEmpty providerP1 "ext.a" true).1).mementoRegistrationList ∧
    (extAW ∈ activationRequested
        ((registerProvider regStateEmpty providerP1 "ext.a" true).1).mementoRegistrationList
        [extAW] "jvsc.host" ↔
      (extAW ∈ [extAW] ∧ extAW.isActive = false ∧
       (extAW.contributesPythonRemoteServerProvider = true ∨
         extAW.id ∈
           ((registerProvider regStateEmpty providerP1 "ext.a"
             true).1).mementoRegistrationList.map (fun r => r.extensionId)) ∧
       extAW.id ≠ "jvsc.host")) :=
  registrationPersistedAndLazyActivation regStateEmpty providerP1 "ext.a" [extAW]
    "jvsc.host" extAW rfl

/-- C8: when a provider with the same id is already registered,
`registerProvider` throws and the returned state is exactly the input
state: the provider map, the provider-to-extension mapping, the persisted
registration list and the event counter are all unchanged. -/
theorem registerProviderAtomicOnFailure (s : RegState) (p : UriProvider) (eid : String)
    (u : Bool) (h : (List.lookup p.id s.providers).isSome = true) :
    registerProvider s p eid u =
      (s, Except.error ("IJupyterUriProvider already exists with id " ++ p.id)) := by
  unfold registerProvider
  rw [if_pos h]

theorem registerProviderAtomicOnFailure_witness :
    registerProvider regStateWithP1 providerP1 "ext.b" false =
      (regStateWithP1,
       Except.error ("IJupyterUriProvider already exists with id " ++ providerP1.id)) :=
  registerProviderAtomicOnFailure regStateWithP1 providerP1 "ext.b" false rfl
